import Mathlib

/-!
Verification of the generic CRUD repository core of `fastapi-base`:
the filter/sort compiler (`fastwings/utils/base_sql_serivce.py`),
the request-parameter schema (`fastwings/schema/common.py`), and the two
repository variants (`fastapi_base/crud/sql_repo.py`, synchronous, and
`fastwings/crud/sql_async_repo.py`, asynchronous).

The embedding is shallow: SQLAlchemy column expressions become a predicate
AST (`Pred`), entity types become finite attribute trees (`Model`), the
database behind a session becomes a list of rows (`Row`), and Python
exceptions become an explicit error type (`PyExc`) threaded through
`Except`.  Filter values are threaded through opaquely by every operator
except the `like` family, which interpolates them into a pattern string;
we model values in filters as strings, and row attribute values by `Val`.
-/

set_option autoImplicit false

namespace FastapiBase

/-- Python exceptions that the embedded code can raise.
`valueError msg` models `ValueError(msg)`; `attributeError n` models
`AttributeError` from accessing a missing attribute `n`;
`databaseError` models `ServerErrorCode.DATABASE_ERROR.value(ex)`, the
uniform `BusinessException` raised after catching a `SQLAlchemyError`
(the original cause is attached by `raise ... from ex`). -/
inductive PyExc where
  | valueError (msg : String)
  | attributeError (name : String)
  | databaseError
deriving DecidableEq, Repr

/-- An entity type (a SQLAlchemy declarative model class) seen through
`hasattr`/`getattr`: a finite tree of named attributes.  Leaf columns are
nodes with no further attributes; a relationship attribute holds the
related type's attributes underneath it (enabling dot-path traversal such
as `"profile.email"`). -/
inductive Model where
  | node (attrs : List (String × Model))
deriving Repr

/-- First binding of a name in an attribute list. -/
def findAttr : List (String × Model) → String → Option Model
  | [], _ => none
  | (k, v) :: rest, name => if k = name then some v else findAttr rest name

/-- `getattr(model, name)` when it exists, `none` when `hasattr` is false. -/
def Model.getAttr : Model → String → Option Model
  | .node attrs, name => findAttr attrs name

/-- `hasattr(model, name)`. -/
def Model.hasAttr (m : Model) (name : String) : Bool :=
  (m.getAttr name).isSome

/-- A resolved column handle: the SQLAlchemy instrumented attribute that
`__get_column` returns, represented by the dot-path segments that reached
it. -/
abbrev ColumnRef := List String

/-- The compiled-predicate AST: the SQLAlchemy `ColumnElement[bool]`
expressions that the operator table and `convert_filter`/`convert_or`
construct.  `isFalseC c` is `c.is_(False)`, `isNullC c` is `c.is_(None)`,
`notNullC c` is `c.is_not(None)`, `orC ps` is `or_(*ps)`. -/
inductive Pred where
  | eqC (col : ColumnRef) (v : String)
  | neC (col : ColumnRef) (v : String)
  | gtC (col : ColumnRef) (v : String)
  | ltC (col : ColumnRef) (v : String)
  | geC (col : ColumnRef) (v : String)
  | leC (col : ColumnRef) (v : String)
  | inC (col : ColumnRef) (v : String)
  | ninC (col : ColumnRef) (v : String)
  | likeC (col : ColumnRef) (pattern : String)
  | ilikeC (col : ColumnRef) (pattern : String)
  | isNullC (col : ColumnRef)
  | notNullC (col : ColumnRef)
  | isFalseC (col : ColumnRef)
  | orC (ps : List Pred)
deriving Repr

/-- The `OPERATORS` dict of `base_sql_serivce.py`: operator name to
predicate builder.  `like`/`ilike` pass the value through unmodified;
`starts` builds `f"{val}%"`, `ends` builds `f"%{val}"`, `cont` builds
`f"%{val}%"`; `isnull`/`notnull` ignore the value. -/
def OPERATORS : List (String × (ColumnRef → String → Pred)) :=
  [ ("eq", fun col val => .eqC col val),
    ("ne", fun col val => .neC col val),
    ("gt", fun col val => .gtC col val),
    ("lt", fun col val => .ltC col val),
    ("gte", fun col val => .geC col val),
    ("lte", fun col val => .leC col val),
    ("in", fun col val => .inC col val),
    ("nin", fun col val => .ninC col val),
    ("like", fun col val => .likeC col val),
    ("ilike", fun col val => .ilikeC col val),
    ("starts", fun col val => .likeC col (val ++ "%")),
    ("ends", fun col val => .likeC col ("%" ++ val)),
    ("cont", fun col val => .likeC col ("%" ++ val ++ "%")),
    ("isnull", fun col _ => .isNullC col),
    ("notnull", fun col _ => .notNullC col) ]

/-- Dict membership / lookup in `OPERATORS`. -/
def lookupOp : List (String × (ColumnRef → String → Pred)) → String →
    Option (ColumnRef → String → Pred)
  | [], _ => none
  | (k, b) :: rest, op => if k = op then some b else lookupOp rest op

/-- `OPERATORS[op](column, val)` when `op in OPERATORS`, `none` otherwise. -/
def applyOperator (op : String) (col : ColumnRef) (val : String) : Option Pred :=
  match lookupOp OPERATORS op with
  | none => none
  | some build => some (build col val)

/-- Splitting a character list at every occurrence of a separator
character, Python-`str.split` style: `n` separators yield `n + 1`
(possibly empty) pieces. -/
def splitOnChar (sep : Char) : List Char → List (List Char)
  | [] => [[]]
  | c :: rest =>
    match splitOnChar sep rest with
    | [] => if c = sep then [[], []] else [[c]]
    | w :: ws => if c = sep then [] :: w :: ws else (c :: w) :: ws

/-- `field.split(".")`: the dot-path segments of a field string. -/
def splitDots (field : String) : List String :=
  (splitOnChar '.' field.toList).map (fun cs => String.mk cs)

/-- `str.upper()` on a string. -/
def pyUpper (s : String) : String := String.mk (s.toList.map Char.toUpper)

/-- The loop body of `__get_column`: walk the already-split dot path one
segment at a time, `getattr`-ing into the model; `none` as soon as a
segment is not an attribute of the type reached so far. -/
def walkModel : Model → List String → Option Model
  | m, [] => some m
  | m, part :: rest =>
    match m.getAttr part with
    | none => none
    | some m2 => walkModel m2 rest

/-- `__get_column(model, query_item)`: navigate the dot-notation field of a
filter or sort; raises `ValueError(f"Invalid field: {field}")` when any
segment is absent, otherwise returns the reached column handle. -/
def get_column (m : Model) (field : String) : Except PyExc ColumnRef :=
  match walkModel m (splitDots field) with
  | none => .error (.valueError ("Invalid field: " ++ field))
  | some _ => .ok (splitDots field)

/-- The spec-side field-resolution condition, stated segment-wise: every
segment of the path is an attribute of the type reached so far. -/
def resolves : Model → List String → Bool
  | _, [] => true
  | m, seg :: rest =>
    m.hasAttr seg &&
      (match m.getAttr seg with
       | none => false
       | some m2 => resolves m2 rest)

/-- A declarative filter entry (`QueryFilter` of `schema/common.py`):
`field` is a dot-path string, `operator` one of the schema's literal
operator names, `value` opaque. -/
structure QueryFilter where
  field : String
  operator : String
  value : String
deriving DecidableEq, Repr

/-- A declarative sort entry (`QuerySort` of `schema/common.py`). -/
structure QuerySort where
  field : String
  order : String
deriving DecidableEq, Repr

/-- The fifteen operator names admitted by the `OperatorType` literal of
`schema/common.py`. -/
def OperatorTypeValues : List String :=
  ["eq", "ne", "gt", "lt", "gte", "lte",
   "in", "nin", "like", "ilike", "starts", "ends", "cont",
   "isnull", "notnull"]

/-- The two sort orders admitted by the `QuerySortOperator` literal of
`schema/common.py`. -/
def SortOrderValues : List String := ["ASC", "DESC"]

/-- `ParsedRequestParams` of `schema/common.py` (projection `fields` kept
as raw strings; pagination fields kept for fidelity, unused by the
compiler). -/
structure ParsedRequestParams where
  page : Option Int := none
  per_page : Option Int := none
  limit : Option Int := none
  offset : Option Int := none
  fields : List String := []
  filter : List QueryFilter := []
  or_ : List QueryFilter := []
  sort : List QuerySort := []
  with_deleted : Bool := false
deriving Repr

/-- Pydantic attribute access on a `ParsedRequestParams` instance, for the
attributes that hold filter lists: only declared field names resolve; in
particular `"or_"` is a declared field but `"_or"` is not, so accessing
`parsed._or` raises `AttributeError`. -/
def ParsedRequestParams.getFilterListAttr
    (p : ParsedRequestParams) : String → Option (List QueryFilter)
  | "filter" => some p.filter
  | "or_" => some p.or_
  | _ => none

/-- `__build_filter_condition(model, filter_item)`: resolve the column,
check the operator against `OPERATORS`, and apply the builder. -/
def build_filter_condition (m : Model) (f : QueryFilter) : Except PyExc Pred :=
  match get_column m f.field with
  | .error e => .error e
  | .ok column =>
    match lookupOp OPERATORS f.operator with
    | none => .error (.valueError ("Unsupported operator: " ++ f.operator))
    | some build => .ok (build column f.value)

/-- The accumulation loop shared by `convert_filter` and `convert_or`:
compile each entry in order, stopping at the first raised exception. -/
def build_filters (m : Model) : List QueryFilter → Except PyExc (List Pred)
  | [] => .ok []
  | f :: rest =>
    match build_filter_condition m f with
    | .error e => .error e
    | .ok c =>
      match build_filters m rest with
      | .error e => .error e
      | .ok cs => .ok (c :: cs)

/-- A compiled sort element: `column.asc()` or `column.desc()`. -/
inductive SortElem where
  | asc (col : ColumnRef)
  | desc (col : ColumnRef)
deriving DecidableEq, Repr

/-- The loop body of `convert_sort` for one `QuerySort`. -/
def sort_one (m : Model) (s : QuerySort) : Except PyExc SortElem :=
  match get_column m s.field with
  | .error e => .error e
  | .ok column =>
    if pyUpper s.order = "ASC" then .ok (.asc column)
    else if pyUpper s.order = "DESC" then .ok (.desc column)
    else .error (.valueError ("Unsupported sort order: " ++ s.order))

/-- The accumulation loop of `convert_sort`. -/
def build_sorts (m : Model) : List QuerySort → Except PyExc (List SortElem)
  | [] => .ok []
  | s :: rest =>
    match sort_one m s with
    | .error e => .error e
    | .ok el =>
      match build_sorts m rest with
      | .error e => .error e
      | .ok els => .ok (el :: els)

/-- `convert_sort(model, parsed)`: parse all sorts into an `order_by`
list. -/
def convert_sort (m : Model) (p : ParsedRequestParams) : Except PyExc (List SortElem) :=
  build_sorts m p.sort

/-- `convert_or(model, parsed)`: the source iterates `parsed._or`, but the
schema declares the field as `or_`, so the pydantic attribute access
raises `AttributeError` before any entry is compiled. -/
def convert_or (m : Model) (p : ParsedRequestParams) : Except PyExc Pred :=
  match p.getFilterListAttr "_or" with
  | none => .error (.attributeError "_or")
  | some entries =>
    match build_filters m entries with
    | .error e => .error e
    | .ok conds => .ok (.orC conds)

/-- `convert_filter(model, parsed)`: parse all filters, prefixed by the
soft-delete guard `is_deleted.is_(False)` when `with_deleted` is unset and
the model has an `is_deleted` attribute. -/
def convert_filter (m : Model) (p : ParsedRequestParams) : Except PyExc (List Pred) :=
  match build_filters m p.filter with
  | .error e => .error e
  | .ok cs =>
    .ok ((if !p.with_deleted && m.hasAttr "is_deleted"
          then [Pred.isFalseC ["is_deleted"]] else []) ++ cs)

/-! ## Rows and repositories

The database behind a session is a list of rows; a row is its attribute
assignment.  `query(...).filter(...).first()` and
`(await session.execute(select(...).where(...))).scalars().first()` become
`List.find?`; a bulk `query(...).filter(...).update(d)` maps the update
over every matching row; mutating the single fetched instance rewrites the
first matching row. -/

/-- A column value of a row. -/
inductive Val where
  | str (s : String)
  | int (n : Int)
  | bool (b : Bool)
deriving DecidableEq, Repr

/-- First binding of a name in an attribute assignment. -/
def lookupVal : List (String × Val) → String → Option Val
  | [], _ => none
  | (k, v) :: rest, name => if k = name then some v else lookupVal rest name

/-- A persisted entity instance: its attribute assignment. -/
structure Row where
  attrs : List (String × Val)
deriving DecidableEq, Repr

/-- Attribute read on an entity instance. -/
def Row.attr (r : Row) (k : String) : Option Val := lookupVal r.attrs k

/-- `setattr` on an entity instance: rebind the first occurrence of the
name, or add the binding when absent. -/
def setAttrList : List (String × Val) → String → Val → List (String × Val)
  | [], k, v => [(k, v)]
  | (k2, v2) :: rest, k, v =>
    if k2 = k then (k, v) :: rest else (k2, v2) :: setAttrList rest k v

/-- `setattr` on a row. -/
def Row.setAttr (r : Row) (k : String) (v : Val) : Row := ⟨setAttrList r.attrs k v⟩

/-- `for key, value in update_data.items(): setattr(obj, key, value)`, and
likewise the effect of a bulk `update(update_data)` on one matching row. -/
def Row.applyUpdate (r : Row) (data : List (String × Val)) : Row :=
  data.foldl (fun r2 kv => r2.setAttr kv.1 kv.2) r

/-- `SQLRepository.get`: `session.query(model).filter(model.id == obj_id,
model.is_deleted.is_(False)).first()`. -/
def SQLRepository.get (db : List Row) (objId : Val) : Option Row :=
  db.find? (fun r =>
    r.attr "id" == some objId && r.attr "is_deleted" == some (Val.bool false))

/-- `SQLRepository.create`: construct the model instance from the input
fields, add, commit; returns `(new database, created instance)`. -/
def SQLRepository.create (db : List Row) (data : List (String × Val)) :
    List Row × Row :=
  (db ++ [⟨data⟩], ⟨data⟩)

/-- `SQLRepository.update`: bulk
`session.query(model).filter(model.id == obj_id).update(update_data)`,
commit; returns `(new database, returned value)`, where the returned value
is `obj_in`, the input, as in the source. -/
def SQLRepository.update (db : List Row) (objId : Val)
    (data : List (String × Val)) : List Row × List (String × Val) :=
  (db.map (fun r => if r.attr "id" == some objId then r.applyUpdate data else r),
   data)

/-- `SQLRepository.delete`: bulk
`...filter(model.id == obj_id).update({"is_deleted": True})`, commit. -/
def SQLRepository.delete (db : List Row) (objId : Val) : List Row :=
  db.map (fun r =>
    if r.attr "id" == some objId then r.setAttr "is_deleted" (Val.bool true) else r)

/-- `SQLAsyncRepository.get`:
`(await session.scalars(select(model).where(model.id == obj_id))).first()`
— no soft-delete condition in the `where` clause. -/
def SQLAsyncRepository.get (db : List Row) (objId : Val) : Option Row :=
  db.find? (fun r => r.attr "id" == some objId)

/-- Mutation of the single fetched instance: rewrite the first row
matching the id. -/
def replaceFirstById : List Row → Val → (Row → Row) → List Row
  | [], _, _ => []
  | r :: rest, objId, upd =>
    if r.attr "id" == some objId then upd r :: rest
    else r :: replaceFirstById rest objId upd

/-- `session.delete(obj)` on the fetched instance: remove the first row
matching the id. -/
def removeFirstById : List Row → Val → List Row
  | [], _ => []
  | r :: rest, objId =>
    if r.attr "id" == some objId then rest else r :: removeFirstById rest objId

/-- `SQLAsyncRepository.create`: same shape as the synchronous variant. -/
def SQLAsyncRepository.create (db : List Row) (data : List (String × Val)) :
    List Row × Row :=
  (db ++ [⟨data⟩], ⟨data⟩)

/-- `SQLAsyncRepository.update`: fetch the first row matching the id, then
`setattr` each input field on it, commit, refresh, and return `obj_in`.
When no row matches, `obj` is `None`: with a non-empty update dict the
first `setattr(None, key, value)` raises `AttributeError` (not a
`SQLAlchemyError`, so it escapes the handler); with an empty dict the loop
is skipped and `session.refresh(None)` raises a `SQLAlchemyError`, which
the handler converts to the uniform database error. -/
def SQLAsyncRepository.update (db : List Row) (objId : Val)
    (data : List (String × Val)) :
    Except PyExc (List Row × List (String × Val)) :=
  match db.find? (fun r => r.attr "id" == some objId) with
  | none =>
    if data.isEmpty then .error .databaseError
    else .error (.attributeError "NoneType")
  | some _ => .ok (replaceFirstById db objId (fun r => r.applyUpdate data), data)

/-- `SQLAsyncRepository.delete`: fetch the first row matching the id, then
`session.delete(obj)` — a hard delete.  When no row matches,
`session.delete(None)` raises `UnmappedInstanceError`, a `SQLAlchemyError`
subclass, so the handler rolls back and raises the uniform database
error. -/
def SQLAsyncRepository.delete (db : List Row) (objId : Val) :
    Except PyExc (List Row) :=
  match db.find? (fun r => r.attr "id" == some objId) with
  | none => .error .databaseError
  | some _ => .ok (removeFirstById db objId)

/-! ## Instrumented operations

Each repository method wraps its body in `try/except SQLAlchemyError`.
`OpOutcome` records, next to the result, whether the handler called
`session.rollback()`.  The `dbFail` flag injects a backend
`SQLAlchemyError` inside the `try` block (connectivity, constraint
violation, timeout). -/

/-- Result of one repository call together with whether the exception
handler rolled the transaction back. -/
structure OpOutcome (α : Type) where
  result : Except PyExc α
  rolledBack : Bool
deriving Repr

/-- `SQLRepository.get` with its handler: `except SQLAlchemyError as ex:
raise ServerErrorCode.DATABASE_ERROR.value(ex) from ex` — no rollback. -/
def SQLRepository.getOp (dbFail : Bool) (db : List Row) (objId : Val) :
    OpOutcome (Option Row) :=
  if dbFail then { result := .error .databaseError, rolledBack := false }
  else { result := .ok (SQLRepository.get db objId), rolledBack := false }

/-- `SQLRepository.create` with its handler: rollback, then raise the
uniform database error. -/
def SQLRepository.createOp (dbFail : Bool) (db : List Row)
    (data : List (String × Val)) : OpOutcome (List Row × Row) :=
  if dbFail then { result := .error .databaseError, rolledBack := true }
  else { result := .ok (SQLRepository.create db data), rolledBack := false }

/-- `SQLRepository.update` with its handler: rollback, then raise. -/
def SQLRepository.updateOp (dbFail : Bool) (db : List Row) (objId : Val)
    (data : List (String × Val)) : OpOutcome (List Row × List (String × Val)) :=
  if dbFail then { result := .error .databaseError, rolledBack := true }
  else { result := .ok (SQLRepository.update db objId data), rolledBack := false }

/-- `SQLRepository.delete` with its handler: rollback, then raise. -/
def SQLRepository.deleteOp (dbFail : Bool) (db : List Row) (objId : Val) :
    OpOutcome (List Row) :=
  if dbFail then { result := .error .databaseError, rolledBack := true }
  else { result := .ok (SQLRepository.delete db objId), rolledBack := false }

/-- `SQLAsyncRepository.get` with its handler — like the synchronous
variant, no rollback before re-raising. -/
def SQLAsyncRepository.getOp (dbFail : Bool) (db : List Row) (objId : Val) :
    OpOutcome (Option Row) :=
  if dbFail then { result := .error .databaseError, rolledBack := false }
  else { result := .ok (SQLAsyncRepository.get db objId), rolledBack := false }

/-- `SQLAsyncRepository.create` with its handler: rollback, then raise. -/
def SQLAsyncRepository.createOp (dbFail : Bool) (db : List Row)
    (data : List (String × Val)) : OpOutcome (List Row × Row) :=
  if dbFail then { result := .error .databaseError, rolledBack := true }
  else { result := .ok (SQLAsyncRepository.create db data), rolledBack := false }

/-- `SQLAsyncRepository.update` with its handler: a backend error rolls
back and becomes the uniform database error; the `AttributeError` from
`setattr(None, ...)` is not a `SQLAlchemyError` and escapes without
rollback. -/
def SQLAsyncRepository.updateOp (dbFail : Bool) (db : List Row) (objId : Val)
    (data : List (String × Val)) : OpOutcome (List Row × List (String × Val)) :=
  if dbFail then { result := .error .databaseError, rolledBack := true }
  else
    match SQLAsyncRepository.update db objId data with
    | .error (.attributeError s) =>
      { result := .error (.attributeError s), rolledBack := false }
    | .error e => { result := .error e, rolledBack := true }
    | .ok x => { result := .ok x, rolledBack := false }

/-- `SQLAsyncRepository.delete` with its handler: every `SQLAlchemyError`
(including the `UnmappedInstanceError` from `session.delete(None)`) rolls
back and becomes the uniform database error. -/
def SQLAsyncRepository.deleteOp (dbFail : Bool) (db : List Row) (objId : Val) :
    OpOutcome (List Row) :=
  if dbFail then { result := .error .databaseError, rolledBack := true }
  else
    match SQLAsyncRepository.delete db objId with
    | .error e => { result := .error e, rolledBack := true }
    | .ok db2 => { result := .ok db2, rolledBack := false }

/-! ## Service orchestration -/

/-- `BaseSQLService.get_by`: compile the filters, compile the sorts, then
invoke the repository once.  The second component counts repository
(session) invocations; a compile-time exception propagates with the
repository never having been called. -/
def BaseSQLService.get_by (m : Model) (p : ParsedRequestParams)
    (repoGetBy : List Pred → List SortElem → Option Row) :
    Except PyExc (Option Row) × Nat :=
  match convert_filter m p with
  | .error e => (.error e, 0)
  | .ok fs =>
    match convert_sort m p with
    | .error e => (.error e, 0)
    | .ok ob => (.ok (repoGetBy fs ob), 1)

/-- The `get` contract as the spec words it: fetch by primary identifier,
excluding soft-deleted rows (rows with `is_deleted` true). -/
def spec_get (db : List Row) (objId : Val) : Option Row :=
  db.find? (fun r =>
    r.attr "id" == some objId && !(r.attr "is_deleted" == some (Val.bool true)))

/-! ## Example fixtures -/

/-- Example entity type: columns `id`, `name`, `is_deleted`, and a
`profile` relation exposing an `email` column. -/
def exModel : Model :=
  .node [("id", .node []), ("name", .node []), ("is_deleted", .node []),
         ("profile", .node [("email", .node [])])]

/-- Example entity type without soft-delete support. -/
def exModelNoSoft : Model := .node [("id", .node []), ("name", .node [])]

/-- A live example row. -/
def exRowLive : Row :=
  ⟨[("id", Val.int 1), ("name", Val.str "alice"), ("is_deleted", Val.bool false)]⟩

/-- A soft-deleted example row. -/
def exRowGone : Row :=
  ⟨[("id", Val.int 2), ("name", Val.str "bob"), ("is_deleted", Val.bool true)]⟩

/-- Example request with two ordinary filters. -/
def exParsedFilters : ParsedRequestParams :=
  { filter := [⟨"name", "eq", "alice"⟩, ⟨"profile.email", "cont", "ex"⟩] }

/-- Example request with one valid, compilable OR entry. -/
def exParsedOr : ParsedRequestParams :=
  { or_ := [⟨"name", "eq", "alice"⟩] }

/-- Example request filtering on a field the entity type does not have. -/
def exParsedBadField : ParsedRequestParams :=
  { filter := [⟨"nonexistent", "eq", "x"⟩] }

/-- Example request with a schema-valid filter and sort. -/
def exParsedSorted : ParsedRequestParams :=
  { filter := [⟨"name", "eq", "alice"⟩], sort := [⟨"profile.email", "DESC"⟩] }

/-! ## SQL LIKE semantics

The backend that interprets `col.like(pattern)` is outside this
repository; `likeChars` is standard SQL `LIKE` matching: `%` matches any
run of characters, `_` matches any single character, and every other
pattern character matches itself case-sensitively. -/

/-- SQL `LIKE` matching over character lists (pattern first). -/
def likeChars : List Char → List Char → Bool
  | [], s => s.isEmpty
  | c :: p, s =>
    if c = '%' then
      match s with
      | [] => likeChars p []
      | _ :: s2 => likeChars p s || likeChars (c :: p) s2
    else
      match s with
      | [] => false
      | x :: s2 => if c = '_' ∨ c = x then likeChars p s2 else false
termination_by p s => (p.length, s.length)

/-- SQL `LIKE` matching on strings (pattern first): the semantics the
backend gives to the predicate `Pred.likeC col pattern` on a value of the
column. -/
def likeMatch (pattern s : String) : Bool :=
  likeChars pattern.toList s.toList

/-- A string free of the two `LIKE` wildcard characters. -/
def wildcardFree (v : String) : Prop :=
  ∀ c ∈ v.toList, c ≠ '%' ∧ c ≠ '_'

instance (v : String) : Decidable (wildcardFree v) := by
  unfold wildcardFree; infer_instance

theorem likeChars_nil_pat (s : List Char) : likeChars [] s = s.isEmpty := by
  rw [likeChars.eq_def]

theorem likeChars_pc_nil (p : List Char) : likeChars ('%' :: p) [] = likeChars p [] := by
  rw [likeChars.eq_def]; simp

theorem likeChars_pc_cons (p : List Char) (x : Char) (s2 : List Char) :
    likeChars ('%' :: p) (x :: s2) =
      (likeChars p (x :: s2) || likeChars ('%' :: p) s2) := by
  rw [likeChars.eq_def]; simp

theorem likeChars_lit_nil (c : Char) (p : List Char) (hc : c ≠ '%') :
    likeChars (c :: p) [] = false := by
  rw [likeChars.eq_def]; simp [hc]

theorem likeChars_lit_cons (c : Char) (p : List Char) (x : Char) (s2 : List Char)
    (hc : c ≠ '%') :
    likeChars (c :: p) (x :: s2) =
      if c = '_' ∨ c = x then likeChars p s2 else false := by
  rw [likeChars.eq_def]; simp [hc]

theorem likeChars_percent (p : List Char) (s : List Char) :
    likeChars ('%' :: p) s = true ↔ ∃ t, t <:+ s ∧ likeChars p t = true := by
  induction s with
  | nil =>
    rw [likeChars_pc_nil]
    constructor
    · intro h; exact ⟨[], List.nil_suffix, h⟩
    · rintro ⟨t, ht, h⟩
      rw [List.suffix_nil] at ht
      subst ht; exact h
  | cons x s2 ih =>
    rw [likeChars_pc_cons, Bool.or_eq_true]
    constructor
    · rintro (h | h)
      · exact ⟨x :: s2, List.suffix_refl _, h⟩
      · obtain ⟨t, ht, h2⟩ := ih.mp h
        exact ⟨t, ht.trans (List.suffix_cons x s2), h2⟩
    · rintro ⟨t, ht, h⟩
      rcases List.suffix_cons_iff.mp ht with rfl | ht2
      · exact Or.inl h
      · exact Or.inr (ih.mpr ⟨t, ht2, h⟩)

theorem likeChars_literal (v : List Char) (p : List Char)
    (hv : ∀ c ∈ v, c ≠ '%' ∧ c ≠ '_') (s : List Char) :
    likeChars (v ++ p) s = true ↔ ∃ t, s = v ++ t ∧ likeChars p t = true := by
  induction v generalizing s with
  | nil => simp
  | cons c v2 ih =>
    obtain ⟨hcp, hcu⟩ := hv c (List.mem_cons_self c v2)
    have hv2 : ∀ d ∈ v2, d ≠ '%' ∧ d ≠ '_' :=
      fun d hd => hv d (List.mem_cons_of_mem c hd)
    cases s with
    | nil =>
      rw [List.cons_append, likeChars_lit_nil c (v2 ++ p) hcp]
      constructor
      · intro h; exact absurd h (by simp)
      · rintro ⟨t, ht, _⟩; exact absurd ht (by simp)
    | cons x s2 =>
      rw [List.cons_append, likeChars_lit_cons c (v2 ++ p) x s2 hcp]
      by_cases hcx : c = x
      · subst hcx
        rw [if_pos (Or.inr rfl), ih hv2 s2]
        constructor
        · rintro ⟨t, rfl, h⟩; exact ⟨t, rfl, h⟩
        · rintro ⟨t, ht, h⟩
          rw [List.cons_append] at ht
          injection ht with h1 h2
          exact ⟨t, h2, h⟩
      · rw [if_neg (by rintro (h | h) <;> [exact hcu h; exact hcx h])]
        constructor
        · intro h; exact absurd h (by simp)
        · rintro ⟨t, ht, _⟩
          rw [List.cons_append] at ht
          injection ht with h1 h2
          exact absurd h1.symm hcx

theorem likeChars_percent_single (s : List Char) : likeChars ['%'] s = true := by
  rw [likeChars_percent]
  exact ⟨[], List.nil_suffix, by rw [likeChars_nil_pat]; rfl⟩

/-- `LIKE` with pattern `%v%` (for `v` free of wildcards) is exactly
case-sensitive substring containment of `v`. -/
theorem likeChars_contains (v : List Char) (hv : ∀ c ∈ v, c ≠ '%' ∧ c ≠ '_')
    (s : List Char) :
    likeChars ('%' :: (v ++ ['%'])) s = true ↔ v <:+: s := by
  rw [likeChars_percent]
  constructor
  · rintro ⟨t, ht, h⟩
    obtain ⟨u, rfl, _⟩ := (likeChars_literal v ['%'] hv t).mp h
    exact List.infix_iff_prefix_suffix.mpr ⟨v ++ u, ⟨u, rfl⟩, ht⟩
  · intro h
    obtain ⟨t, htp, hts⟩ := List.infix_iff_prefix_suffix.mp h
    obtain ⟨u, rfl⟩ := htp
    exact ⟨v ++ u, hts,
      (likeChars_literal v ['%'] hv (v ++ u)).mpr
        ⟨u, rfl, likeChars_percent_single u⟩⟩

/-! ## Helper lemmas -/

theorem lookupVal_setAttrList_ne (l : List (String × Val)) (k g : String) (v : Val)
    (h : g ≠ k) : lookupVal (setAttrList l k v) g = lookupVal l g := by
  induction l with
  | nil =>
    simp only [setAttrList, lookupVal]
    rw [if_neg (fun hkg => h hkg.symm)]
  | cons kv rest ih =>
    obtain ⟨k2, v2⟩ := kv
    by_cases hk : k2 = k
    · subst hk
      simp only [setAttrList, if_pos rfl, lookupVal]
      rw [if_neg (fun hkg => h hkg.symm), if_neg (fun hkg => h hkg.symm)]
    · simp only [setAttrList, if_neg hk, lookupVal]
      by_cases hg : k2 = g
      · rw [if_pos hg, if_pos hg]
      · rw [if_neg hg, if_neg hg, ih]

theorem lookupVal_setAttrList_self (l : List (String × Val)) (k : String) (v : Val) :
    lookupVal (setAttrList l k v) k = some v := by
  induction l with
  | nil => simp [setAttrList, lookupVal]
  | cons kv rest ih =>
    obtain ⟨k2, v2⟩ := kv
    by_cases hk : k2 = k
    · subst hk; simp [setAttrList, lookupVal]
    · simp only [setAttrList, if_neg hk, lookupVal]
      exact ih

theorem setAttrList_idem (l : List (String × Val)) (k : String) (v : Val) :
    setAttrList (setAttrList l k v) k v = setAttrList l k v := by
  induction l with
  | nil => simp [setAttrList]
  | cons kv rest ih =>
    obtain ⟨k2, v2⟩ := kv
    by_cases hk : k2 = k
    · subst hk; simp [setAttrList]
    · simp only [setAttrList, if_neg hk]
      rw [ih]

theorem attr_setAttr_ne (r : Row) (k g : String) (v : Val) (h : g ≠ k) :
    (r.setAttr k v).attr g = r.attr g :=
  lookupVal_setAttrList_ne r.attrs k g v h

theorem attr_setAttr_self (r : Row) (k : String) (v : Val) :
    (r.setAttr k v).attr k = some v :=
  lookupVal_setAttrList_self r.attrs k v

theorem setAttr_idem (r : Row) (k : String) (v : Val) :
    (r.setAttr k v).setAttr k v = r.setAttr k v := by
  show Row.mk (setAttrList (setAttrList r.attrs k v) k v) = Row.mk (setAttrList r.attrs k v)
  rw [setAttrList_idem]

theorem applyUpdate_cons (r : Row) (kv : String × Val) (rest : List (String × Val)) :
    r.applyUpdate (kv :: rest) = (r.setAttr kv.1 kv.2).applyUpdate rest := rfl

theorem attr_applyUpdate_ne (data : List (String × Val)) (r : Row) (g : String)
    (h : ∀ kv ∈ data, g ≠ kv.1) :
    (r.applyUpdate data).attr g = r.attr g := by
  induction data generalizing r with
  | nil => rfl
  | cons kv rest ih =>
    rw [applyUpdate_cons, ih _ (fun kv2 hkv2 => h kv2 (List.mem_cons_of_mem kv hkv2)),
      attr_setAttr_ne _ _ _ _ (h kv (List.mem_cons_self kv rest))]

theorem forall2_map_self {R : Row → Row → Prop} (l : List Row) (f : Row → Row)
    (h : ∀ r ∈ l, R r (f r)) : List.Forall₂ R l (l.map f) := by
  induction l with
  | nil => exact List.Forall₂.nil
  | cons r rest ih =>
    exact List.Forall₂.cons (h r (List.mem_cons_self r rest))
      (ih (fun x hx => h x (List.mem_cons_of_mem r hx)))

theorem forall2_replaceFirstById {R : Row → Row → Prop} (l : List Row) (objId : Val)
    (upd : Row → Row) (hrefl : ∀ r, R r r) (hupd : ∀ r, R r (upd r)) :
    List.Forall₂ R l (replaceFirstById l objId upd) := by
  induction l with
  | nil => exact List.Forall₂.nil
  | cons r rest ih =>
    rw [replaceFirstById]
    by_cases hr : (r.attr "id" == some objId) = true
    · rw [if_pos hr]
      exact List.Forall₂.cons (hupd r)
        (List.forall₂_same.mpr (fun x _ => hrefl x))
    · rw [if_neg hr]
      exact List.Forall₂.cons (hrefl r) ih

theorem removeFirstById_length (l : List Row) (objId : Val) (r : Row)
    (h : l.find? (fun r2 => r2.attr "id" == some objId) = some r) :
    (removeFirstById l objId).length + 1 = l.length := by
  induction l with
  | nil => simp at h
  | cons r2 rest ih =>
    rw [removeFirstById]
    by_cases hr : (r2.attr "id" == some objId) = true
    · rw [if_pos hr]; rfl
    · rw [if_neg hr]
      rw [List.find?_cons_of_neg _ (by simpa using hr)] at h
      simpa using ih h

theorem find?_congr_pred {p q : Row → Bool} (l : List Row)
    (h : ∀ r ∈ l, p r = q r) : l.find? p = l.find? q := by
  induction l with
  | nil => rfl
  | cons r rest ih =>
    have hr := h r (List.mem_cons_self r rest)
    by_cases hp : p r = true
    · rw [List.find?_cons_of_pos _ hp, List.find?_cons_of_pos _ (hr ▸ hp)]
    · rw [List.find?_cons_of_neg _ (by simpa using hp),
        List.find?_cons_of_neg _ (by simp [← hr]; simpa using hp)]
      exact ih (fun x hx => h x (List.mem_cons_of_mem r hx))

theorem walkModel_isSome (m : Model) (segs : List String) :
    (walkModel m segs).isSome = resolves m segs := by
  induction segs generalizing m with
  | nil => rfl
  | cons seg rest ih =>
    rw [walkModel, resolves]
    cases hg : m.getAttr seg with
    | none => simp [Model.hasAttr, hg]
    | some m2 => simp [Model.hasAttr, hg, ih m2]

theorem build_filters_ok (m : Model) (fs : List QueryFilter) (cs : List Pred)
    (h : build_filters m fs = Except.ok cs) :
    List.Forall₂ (fun f c => build_filter_condition m f = Except.ok c) fs cs := by
  induction fs generalizing cs with
  | nil =>
    rw [build_filters] at h
    injection h with h2
    subst h2
    exact List.Forall₂.nil
  | cons f rest ih =>
    rw [build_filters] at h
    cases hc : build_filter_condition m f with
    | error e => rw [hc] at h; exact absurd h (by simp)
    | ok c =>
      rw [hc] at h
      cases hrest : build_filters m rest with
      | error e => rw [hrest] at h; exact absurd h (by simp)
      | ok cs2 =>
        rw [hrest] at h
        injection h with h2
        subst h2
        exact List.Forall₂.cons hc (ih cs2 hrest)

theorem build_filters_ok_mem (m : Model) (fs : List QueryFilter) (cs : List Pred)
    (h : build_filters m fs = Except.ok cs) (f : QueryFilter) (hf : f ∈ fs) :
    ∃ c, build_filter_condition m f = Except.ok c := by
  induction fs generalizing cs with
  | nil => exact absurd hf (List.not_mem_nil f)
  | cons f2 rest ih =>
    rw [build_filters] at h
    cases hc : build_filter_condition m f2 with
    | error e => rw [hc] at h; exact absurd h (by simp)
    | ok c =>
      rw [hc] at h
      cases hrest : build_filters m rest with
      | error e => rw [hrest] at h; exact absurd h (by simp)
      | ok cs2 =>
        rcases List.mem_cons.mp hf with rfl | hf2
        · exact ⟨c, hc⟩
        · exact ih cs2 hrest hf2

/-! ## Claim theorems -/

/-- C2: for every entity type and every parsed request, a successful
`convert_filter` returns the soft-delete guard `is_deleted = false`
prepended exactly when `with_deleted` is false and the type has an
`is_deleted` attribute (omitted otherwise), followed by one compiled
predicate per entry of `parsed.filter`, in input order. -/
theorem convert_filter_correct (m : Model) (p : ParsedRequestParams) (l : List Pred)
    (h : convert_filter m p = Except.ok l) :
    ∃ cs : List Pred,
      l = (if !p.with_deleted && m.hasAttr "is_deleted"
            then [Pred.isFalseC ["is_deleted"]] else []) ++ cs ∧
      List.Forall₂ (fun f c => build_filter_condition m f = Except.ok c)
        p.filter cs := by
  rw [convert_filter] at h
  cases hb : build_filters m p.filter with
  | error e => rw [hb] at h; exact absurd h (by simp)
  | ok cs =>
    rw [hb] at h
    injection h with h2
    exact ⟨cs, h2.symm, build_filters_ok m p.filter cs hb⟩

/-- Witness for `convert_filter_correct` at a concrete model and request:
soft-delete guard present, both filters compiled in order. -/
theorem convert_filter_correct_witness :
    convert_filter exModel exParsedFilters = Except.ok
      [Pred.isFalseC ["is_deleted"], Pred.eqC ["name"] "alice",
       Pred.likeC ["profile", "email"] "%ex%"] ∧
    ∃ cs : List Pred,
      [Pred.isFalseC ["is_deleted"], Pred.eqC ["name"] "alice",
       Pred.likeC ["profile", "email"] "%ex%"] =
        (if !exParsedFilters.with_deleted && exModel.hasAttr "is_deleted"
          then [Pred.isFalseC ["is_deleted"]] else []) ++ cs ∧
      List.Forall₂ (fun f c => build_filter_condition exModel f = Except.ok c)
        exParsedFilters.filter cs :=
  ⟨rfl, convert_filter_correct exModel exParsedFilters _ rfl⟩

/-- C3: the `or_` list of the request is non-empty and its single entry
compiles on its own, yet `convert_or` raises `AttributeError`: the source
iterates `parsed._or` while the schema declares the field `or_`. -/
theorem convert_or_attribute_bug :
    exParsedOr.or_ = [⟨"name", "eq", "alice"⟩] ∧
    build_filter_condition exModel ⟨"name", "eq", "alice"⟩ =
      Except.ok (Pred.eqC ["name"] "alice") ∧
    convert_or exModel exParsedOr = Except.error (PyExc.attributeError "_or") :=
  ⟨rfl, rfl, rfl⟩

/-- C8: for every value `v`, `like`/`ilike` pass the value through
unmodified (the caller may supply wildcard characters); `starts` produces
`v%`, `ends` produces `%v`, `cont` produces `%v%`; and whenever `v` itself
is free of wildcard characters, the `LIKE` semantics of the `cont`
pattern is exactly case-sensitive substring containment of `v`. -/
theorem like_operators_correct (col : ColumnRef) (v : String) :
    applyOperator "like" col v = some (Pred.likeC col v) ∧
    applyOperator "ilike" col v = some (Pred.ilikeC col v) ∧
    applyOperator "starts" col v = some (Pred.likeC col (v ++ "%")) ∧
    applyOperator "ends" col v = some (Pred.likeC col ("%" ++ v)) ∧
    applyOperator "cont" col v = some (Pred.likeC col ("%" ++ v ++ "%")) ∧
    (wildcardFree v →
      ∀ s : String, likeMatch ("%" ++ v ++ "%") s = true ↔
        v.toList <:+: s.toList) := by
  refine ⟨rfl, rfl, rfl, rfl, rfl, fun hv s => ?_⟩
  have hp : ("%" ++ v ++ "%").toList = '%' :: (v.toList ++ ['%']) := by
    simp [String.toList, String.data_append]
  rw [likeMatch, hp]
  exact likeChars_contains v.toList hv s.toList

/-- Witness for `like_operators_correct` at the wildcard-free value
`"abc"` (substring equivalence included) and at the wildcard-bearing
value `"a%_c"` (pass-through). -/
theorem like_operators_correct_witness :
    (applyOperator "like" ["name"] "abc" = some (Pred.likeC ["name"] "abc") ∧
     applyOperator "ilike" ["name"] "abc" = some (Pred.ilikeC ["name"] "abc") ∧
     applyOperator "starts" ["name"] "abc" =
       some (Pred.likeC ["name"] ("abc" ++ "%")) ∧
     applyOperator "ends" ["name"] "abc" =
       some (Pred.likeC ["name"] ("%" ++ "abc")) ∧
     applyOperator "cont" ["name"] "abc" =
       some (Pred.likeC ["name"] ("%" ++ "abc" ++ "%")) ∧
     (wildcardFree "abc" →
       ∀ s : String, likeMatch ("%" ++ "abc" ++ "%") s = true ↔
         "abc".toList <:+: s.toList)) ∧
    wildcardFree "abc" ∧
    (∀ s : String, likeMatch ("%" ++ "abc" ++ "%") s = true ↔
      "abc".toList <:+: s.toList) ∧
    applyOperator "like" ["name"] "a%_c" = some (Pred.likeC ["name"] "a%_c") ∧
    applyOperator "ilike" ["name"] "a%_c" = some (Pred.ilikeC ["name"] "a%_c") :=
  ⟨like_operators_correct ["name"] "abc", by decide,
    (like_operators_correct ["name"] "abc").2.2.2.2.2 (by decide),
    (like_operators_correct ["name"] "a%_c").1,
    (like_operators_correct ["name"] "a%_c").2.1⟩

theorem get_column_error (m : Model) (field : String) (e : PyExc)
    (h : get_column m field = Except.error e) :
    e = PyExc.valueError ("Invalid field: " ++ field) := by
  rw [get_column] at h
  cases hw : walkModel m (splitDots field) with
  | none => rw [hw] at h; injection h with h2; exact h2.symm
  | some m2 => rw [hw] at h; exact absurd h (by simp)

theorem lookupOp_of_mem (op : String) (h : op ∈ OperatorTypeValues) :
    (lookupOp OPERATORS op).isSome = true := by
  fin_cases h <;> rfl

theorem sort_one_error (m : Model) (s : QuerySort)
    (hs : s.order ∈ SortOrderValues) (e : PyExc)
    (h : sort_one m s = Except.error e) :
    e = PyExc.valueError ("Invalid field: " ++ s.field) := by
  rw [sort_one] at h
  cases hg : get_column m s.field with
  | error e2 =>
    rw [hg] at h
    injection h with h2
    subst h2
    exact get_column_error m s.field e2 hg
  | ok col =>
    rw [hg] at h
    simp only [SortOrderValues, List.mem_cons, List.mem_singleton] at hs
    rcases hs with h1 | h1 | h1
    · rw [h1] at h
      rw [show pyUpper "ASC" = "ASC" from by decide] at h
      simp at h
    · rw [h1] at h
      rw [show pyUpper "DESC" = "DESC" from by decide] at h
      simp at h
    · exact absurd h1 (by simp)

theorem build_sorts_error (m : Model) (ss : List QuerySort)
    (hs : ∀ s ∈ ss, s.order ∈ SortOrderValues) (e : PyExc)
    (h : build_sorts m ss = Except.error e) :
    ∃ s ∈ ss, e = PyExc.valueError ("Invalid field: " ++ s.field) := by
  induction ss with
  | nil => rw [build_sorts] at h; exact absurd h (by simp)
  | cons s rest ih =>
    rw [build_sorts] at h
    cases h1 : sort_one m s with
    | error e2 =>
      rw [h1] at h
      injection h with h2
      subst h2
      exact ⟨s, List.mem_cons_self s rest,
        sort_one_error m s (hs s (List.mem_cons_self s rest)) e2 h1⟩
    | ok el =>
      rw [h1] at h
      cases h2 : build_sorts m rest with
      | error e2 =>
        rw [h2] at h
        injection h with h3
        subst h3
        obtain ⟨s2, hs2, he⟩ :=
          ih (fun x hx => hs x (List.mem_cons_of_mem s hx)) h2
        exact ⟨s2, List.mem_cons_of_mem s hs2, he⟩
      | ok els => rw [h2] at h; exact absurd h (by simp)

/-- C9: a dot-path with an unresolvable segment makes `get_column` raise
`ValueError` naming the full offending path; this is decided at compile
time, before any repository/session call (the instrumented service
performs zero repository calls on such a request); and every path whose
segments all resolve — including two-segment relation traversals such as
`"profile.email"` — resolves to its segment list. -/
theorem field_resolution_correct (m : Model) (field : String)
    (h : resolves m (splitDots field) = false) :
    get_column m field =
      Except.error (PyExc.valueError ("Invalid field: " ++ field)) ∧
    (∀ (p : ParsedRequestParams)
       (repoGetBy : List Pred → List SortElem → Option Row),
      (∃ f ∈ p.filter, f.field = field) →
      (BaseSQLService.get_by m p repoGetBy).2 = 0) ∧
    (∀ g : String, resolves m (splitDots g) = true →
      get_column m g = Except.ok (splitDots g)) := by
  have hwalk : walkModel m (splitDots field) = none := by
    cases hw : walkModel m (splitDots field) with
    | none => rfl
    | some m2 =>
      have h2 := walkModel_isSome m (splitDots field)
      rw [hw, h] at h2
      simp at h2
  refine ⟨?_, ?_, ?_⟩
  · rw [get_column, hwalk]
  · rintro p repo ⟨f, hf, hfield⟩
    have hbfc : build_filter_condition m f =
        Except.error (PyExc.valueError ("Invalid field: " ++ field)) := by
      rw [build_filter_condition, hfield, get_column, hwalk]
    cases hb : build_filters m p.filter with
    | error e => simp [BaseSQLService.get_by, convert_filter, hb]
    | ok cs =>
      exfalso
      obtain ⟨c, hc⟩ := build_filters_ok_mem m p.filter cs hb f hf
      rw [hbfc] at hc
      exact absurd hc (by simp)
  · intro g hg
    have h2 : (walkModel m (splitDots g)).isSome = true := by
      rw [walkModel_isSome]; exact hg
    obtain ⟨m2, hm2⟩ := Option.isSome_iff_exists.mp h2
    rw [get_column, hm2]

/-- Witness for `field_resolution_correct` at the model with a `profile`
relation and the unresolvable path `"nonexistent"`. -/
theorem field_resolution_correct_witness :
    resolves exModel (splitDots "nonexistent") = false ∧
    (get_column exModel "nonexistent" =
       Except.error (PyExc.valueError ("Invalid field: " ++ "nonexistent")) ∧
     (∀ (p : ParsedRequestParams)
        (repoGetBy : List Pred → List SortElem → Option Row),
       (∃ f ∈ p.filter, f.field = "nonexistent") →
       (BaseSQLService.get_by exModel p repoGetBy).2 = 0) ∧
     (∀ g : String, resolves exModel (splitDots g) = true →
       get_column exModel g = Except.ok (splitDots g))) :=
  ⟨by decide, field_resolution_correct exModel "nonexistent" (by decide)⟩

/-- C10: for a schema-valid operator the unsupported-operator branch of
`__build_filter_condition` is unreachable — it can only fail with the
invalid-field error — and for schema-valid sort orders the
unsupported-sort-order branch of `convert_sort` is unreachable — every
failure is an invalid-field error for one of the requested sorts. -/
theorem schema_dispatch_exhaustive (m : Model) (f : QueryFilter)
    (p : ParsedRequestParams)
    (hf : f.operator ∈ OperatorTypeValues)
    (hs : ∀ s ∈ p.sort, s.order ∈ SortOrderValues) :
    (∀ e, build_filter_condition m f = Except.error e →
      e = PyExc.valueError ("Invalid field: " ++ f.field)) ∧
    (∀ e, convert_sort m p = Except.error e →
      ∃ s ∈ p.sort, e = PyExc.valueError ("Invalid field: " ++ s.field)) := by
  constructor
  · intro e h
    rw [build_filter_condition] at h
    cases hg : get_column m f.field with
    | error e2 =>
      rw [hg] at h
      injection h with h2
      subst h2
      exact get_column_error m f.field e2 hg
    | ok col =>
      rw [hg] at h
      obtain ⟨b, hb⟩ := Option.isSome_iff_exists.mp (lookupOp_of_mem f.operator hf)
      rw [hb] at h
      exact absurd h (by simp)
  · intro e h
    exact build_sorts_error m p.sort hs e h

/-- Witness for `schema_dispatch_exhaustive` at a concrete filter and a
concrete sorted request. -/
theorem schema_dispatch_exhaustive_witness :
    (QueryFilter.mk "name" "eq" "alice").operator ∈ OperatorTypeValues ∧
    (∀ s ∈ exParsedSorted.sort, s.order ∈ SortOrderValues) ∧
    ((∀ e, build_filter_condition exModel (QueryFilter.mk "name" "eq" "alice") =
        Except.error e →
      e = PyExc.valueError
        ("Invalid field: " ++ (QueryFilter.mk "name" "eq" "alice").field)) ∧
     (∀ e, convert_sort exModel exParsedSorted = Except.error e →
      ∃ s ∈ exParsedSorted.sort,
        e = PyExc.valueError ("Invalid field: " ++ s.field))) :=
  ⟨by decide, by decide,
    schema_dispatch_exhaustive exModel (QueryFilter.mk "name" "eq" "alice")
      exParsedSorted (by decide) (by decide)⟩

/-- C1 (counterexample): on a database holding one soft-deleted row with
id 2, the synchronous `get` (and the spec-worded `get`) return nothing,
but the asynchronous `get` returns the soft-deleted row — the two variants
do not have identical semantics and the asynchronous one does not exclude
soft-deleted rows. -/
theorem get_variants_differ :
    SQLRepository.get [exRowGone] (Val.int 2) = none ∧
    SQLAsyncRepository.get [exRowGone] (Val.int 2) = some exRowGone ∧
    exRowGone.attr "is_deleted" = some (Val.bool true) ∧
    spec_get [exRowGone] (Val.int 2) = none :=
  ⟨rfl, rfl, rfl, rfl⟩

/-- C1 (amended): `SQLRepository.get` fetches the first row by primary
identifier with `is_deleted` false (agreeing with the spec-worded `get` on
rows whose `is_deleted` is boolean), while `SQLAsyncRepository.get`
fetches the first row by primary identifier only and returns soft-deleted
rows. -/
theorem get_semantics_amended (db : List Row) (objId : Val) (r : Row) :
    (SQLRepository.get db objId = some r →
      r ∈ db ∧ r.attr "id" = some objId ∧
        r.attr "is_deleted" = some (Val.bool false)) ∧
    (SQLAsyncRepository.get db objId = some r →
      r ∈ db ∧ r.attr "id" = some objId) ∧
    ((∀ r2 ∈ db, r2.attr "is_deleted" = some (Val.bool false) ∨
        r2.attr "is_deleted" = some (Val.bool true)) →
      SQLRepository.get db objId = spec_get db objId) ∧
    (r ∈ db → r.attr "id" = some objId →
      r.attr "is_deleted" = some (Val.bool true) →
      SQLRepository.get db objId ≠ some r ∧
        SQLAsyncRepository.get db objId ≠ none) := by
  refine ⟨?_, ?_, ?_, ?_⟩
  · intro h
    have hm := List.mem_of_find?_eq_some h
    have hp := List.find?_some h
    simp only [Bool.and_eq_true, beq_iff_eq] at hp
    exact ⟨hm, hp.1, hp.2⟩
  · intro h
    have hm := List.mem_of_find?_eq_some h
    have hp := List.find?_some h
    simp only [beq_iff_eq] at hp
    exact ⟨hm, hp⟩
  · intro hwf
    apply find?_congr_pred
    intro r2 hr2
    rcases hwf r2 hr2 with hd | hd <;> simp [hd]
  · intro hmem hid hdel
    constructor
    · intro h
      have hp := List.find?_some h
      simp only [Bool.and_eq_true, beq_iff_eq] at hp
      rw [hdel] at hp
      exact absurd hp.2 (by simp)
    · intro h
      rw [SQLAsyncRepository.get, List.find?_eq_none] at h
      exact h r hmem (by simp [hid])

/-- Witness for `get_semantics_amended` on the soft-deleted row. -/
theorem get_semantics_amended_witness :
    (exRowGone ∈ [exRowGone] ∧ exRowGone.attr "id" = some (Val.int 2) ∧
      exRowGone.attr "is_deleted" = some (Val.bool true)) ∧
    (SQLRepository.get [exRowGone] (Val.int 2) ≠ some exRowGone ∧
      SQLAsyncRepository.get [exRowGone] (Val.int 2) ≠ none) :=
  ⟨⟨by simp, rfl, rfl⟩,
    (get_semantics_amended [exRowGone] (Val.int 2) exRowGone).2.2.2
      (by simp) rfl rfl⟩

/-- C4 (counterexample): the asynchronous `delete` raises the wrapped
database error on a nonexistent id (not an idempotent no-op), and on a
present id it removes the row entirely (hard delete) instead of setting
`is_deleted`; the synchronous `delete` does soft-delete. -/
theorem delete_variants_differ :
    SQLAsyncRepository.delete ([] : List Row) (Val.int 1) =
      Except.error PyExc.databaseError ∧
    SQLAsyncRepository.delete [exRowLive] (Val.int 1) = Except.ok [] ∧
    SQLRepository.delete [exRowLive] (Val.int 1) =
      [Row.mk [("id", Val.int 1), ("name", Val.str "alice"),
               ("is_deleted", Val.bool true)]] :=
  ⟨rfl, rfl, rfl⟩

/-- C4 (amended): the synchronous `delete` soft-deletes every matching row
and is idempotent — a no-op on missing ids, never raising; the
asynchronous `delete` removes the first matching row (hard delete) and
raises the uniform database error exactly when no row matches. -/
theorem delete_semantics_amended (db : List Row) (objId : Val) :
    SQLRepository.delete (SQLRepository.delete db objId) objId =
      SQLRepository.delete db objId ∧
    ((∀ r ∈ db, ¬ r.attr "id" = some objId) →
      SQLRepository.delete db objId = db) ∧
    (∀ r ∈ SQLRepository.delete db objId, r.attr "id" = some objId →
      r.attr "is_deleted" = some (Val.bool true)) ∧
    (SQLAsyncRepository.delete db objId = Except.error PyExc.databaseError ↔
      ∀ r ∈ db, ¬ r.attr "id" = some objId) ∧
    (∀ db2, SQLAsyncRepository.delete db objId = Except.ok db2 →
      db2.length + 1 = db.length) := by
  refine ⟨?_, ?_, ?_, ?_, ?_⟩
  · rw [SQLRepository.delete, SQLRepository.delete, List.map_map]
    apply List.map_congr_left
    intro r _
    simp only [Function.comp]
    by_cases hr : (r.attr "id" == some objId) = true
    · rw [if_pos hr]
      have hid : (r.setAttr "is_deleted" (Val.bool true)).attr "id" = r.attr "id" :=
        attr_setAttr_ne r "is_deleted" "id" (Val.bool true) (by decide)
      rw [if_pos (by rw [hid]; exact hr), setAttr_idem]
    · rw [if_neg hr, if_neg hr]
  · intro hno
    rw [SQLRepository.delete]
    have hid : ∀ r ∈ db,
        (if r.attr "id" == some objId
         then r.setAttr "is_deleted" (Val.bool true) else r) = id r := by
      intro r hr
      rw [if_neg (by simpa using hno r hr)]
      rfl
    rw [List.map_congr_left hid, List.map_id]
  · intro r hr hid
    obtain ⟨r0, hr0, hfr⟩ := List.mem_map.mp hr
    by_cases h0 : (r0.attr "id" == some objId) = true
    · rw [if_pos h0] at hfr
      rw [← hfr]
      exact attr_setAttr_self r0 "is_deleted" (Val.bool true)
    · rw [if_neg h0] at hfr
      subst hfr
      exact absurd hid (by simpa using h0)
  · rw [SQLAsyncRepository.delete]
    cases hf : db.find? (fun r2 => r2.attr "id" == some objId) with
    | none =>
      constructor
      · intro _ r hr
        have h2 := List.find?_eq_none.mp hf r hr
        simpa using h2
      · intro _; rfl
    | some r =>
      constructor
      · intro h; exact absurd h (by simp)
      · intro hno
        have hp := List.find?_some hf
        have hmem := List.mem_of_find?_eq_some hf
        exact absurd (by simpa using hp) (hno r hmem)
  · intro db2 h
    rw [SQLAsyncRepository.delete] at h
    cases hf : db.find? (fun r2 => r2.attr "id" == some objId) with
    | none => rw [hf] at h; exact absurd h (by simp)
    | some r =>
      rw [hf] at h
      injection h with h2
      subst h2
      exact removeFirstById_length db objId r hf

/-- Witness for `delete_semantics_amended`: deleting an id with no
matching row is a no-op for the synchronous variant. -/
theorem delete_semantics_amended_witness :
    (∀ r ∈ [exRowGone], ¬ r.attr "id" = some (Val.int 1)) ∧
    SQLRepository.delete [exRowGone] (Val.int 1) = [exRowGone] :=
  ⟨by decide, (delete_semantics_amended [exRowGone] (Val.int 1)).2.1 (by decide)⟩

/-- C5 (counterexample): on a missing id the synchronous `update` returns
normally (no `NotFound`) and the asynchronous `update` raises
`AttributeError`; and on a present id the returned value is the input
dictionary, not the refreshed persisted entity. -/
theorem update_missing_id_cex :
    SQLRepository.update ([] : List Row) (Val.int 1) [("name", Val.str "x")] =
      ([], [("name", Val.str "x")]) ∧
    SQLAsyncRepository.update ([] : List Row) (Val.int 1)
      [("name", Val.str "x")] = Except.error (PyExc.attributeError "NoneType") ∧
    (SQLRepository.update [exRowLive] (Val.int 1)
      [("name", Val.str "carol")]).2 = [("name", Val.str "carol")] :=
  ⟨rfl, rfl, rfl⟩

/-- C5 (amended): `update` applies the input fields to the matching rows
and returns the input (not the refreshed entity); on a missing id the
synchronous variant silently updates nothing while the asynchronous one
raises `AttributeError` for a non-empty input; neither raises
`NotFound`. -/
theorem update_semantics_amended (db : List Row) (objId : Val)
    (data : List (String × Val)) :
    (SQLRepository.update db objId data).2 = data ∧
    ((∀ r ∈ db, ¬ r.attr "id" = some objId) →
      (SQLRepository.update db objId data).1 = db) ∧
    (∀ r ∈ db, r.attr "id" = some objId →
      r.applyUpdate data ∈ (SQLRepository.update db objId data).1) ∧
    ((∀ r ∈ db, ¬ r.attr "id" = some objId) → data ≠ [] →
      SQLAsyncRepository.update db objId data =
        Except.error (PyExc.attributeError "NoneType")) ∧
    (∀ db2 ret, SQLAsyncRepository.update db objId data = Except.ok (db2, ret) →
      ret = data) := by
  refine ⟨rfl, ?_, ?_, ?_, ?_⟩
  · intro hno
    show db.map _ = db
    have hid : ∀ r ∈ db,
        (if r.attr "id" == some objId then r.applyUpdate data else r) = id r := by
      intro r hr
      rw [if_neg (by simpa using hno r hr)]
      rfl
    rw [List.map_congr_left hid, List.map_id]
  · intro r hr hid
    exact List.mem_map.mpr ⟨r, hr, by rw [if_pos (by simpa using hid)]⟩
  · intro hno hne
    rw [SQLAsyncRepository.update]
    rw [List.find?_eq_none.mpr (fun r hr => by simpa using hno r hr)]
    have hemp : data.isEmpty = false := by
      cases data with
      | nil => exact absurd rfl hne
      | cons kv rest => rfl
    rw [hemp]
    rfl
  · intro db2 ret h
    rw [SQLAsyncRepository.update] at h
    cases hf : db.find? (fun r2 => r2.attr "id" == some objId) with
    | none =>
      rw [hf] at h
      by_cases hemp : data.isEmpty = true
      · rw [if_pos hemp] at h; exact absurd h (by simp)
      · rw [if_neg hemp] at h; exact absurd h (by simp)
    | some r =>
      rw [hf] at h
      simp only [Except.ok.injEq, Prod.mk.injEq] at h
      exact h.2.symm

/-- Witness for `update_semantics_amended`: asynchronous update of a
missing id with a non-empty input raises `AttributeError`. -/
theorem update_semantics_amended_witness :
    ((∀ r ∈ [exRowGone], ¬ r.attr "id" = some (Val.int 1)) ∧
      ([("name", Val.str "x")] : List (String × Val)) ≠ []) ∧
    SQLAsyncRepository.update [exRowGone] (Val.int 1) [("name", Val.str "x")] =
      Except.error (PyExc.attributeError "NoneType") :=
  ⟨⟨by decide, by decide⟩,
    (update_semantics_amended [exRowGone] (Val.int 1)
      [("name", Val.str "x")]).2.2.2.1 (by decide) (by decide)⟩

/-- C6: updating a single field leaves every other attribute of every row
unchanged, in both repository variants (partial-update frame
invariant). -/
theorem update_single_field_frame (db : List Row) (objId : Val) (fld : String)
    (v : Val) (g : String) (hg : g ≠ fld) :
    List.Forall₂ (fun r r2 => r2.attr g = r.attr g) db
      (SQLRepository.update db objId [(fld, v)]).1 ∧
    (∀ db2 ret,
      SQLAsyncRepository.update db objId [(fld, v)] = Except.ok (db2, ret) →
      List.Forall₂ (fun r r2 => r2.attr g = r.attr g) db db2) := by
  have hupd : ∀ r : Row, (r.applyUpdate [(fld, v)]).attr g = r.attr g := by
    intro r
    apply attr_applyUpdate_ne
    intro kv hkv
    rw [List.mem_singleton] at hkv
    subst hkv
    exact hg
  constructor
  · apply forall2_map_self
    intro r _
    by_cases hr : (r.attr "id" == some objId) = true
    · rw [if_pos hr]; exact hupd r
    · rw [if_neg hr]
  · intro db2 ret h
    rw [SQLAsyncRepository.update] at h
    cases hf : db.find? (fun r2 => r2.attr "id" == some objId) with
    | none =>
      rw [hf] at h
      simp at h
    | some r0 =>
      rw [hf] at h
      simp only [Except.ok.injEq, Prod.mk.injEq] at h
      rw [← h.1]
      exact forall2_replaceFirstById db objId _ (fun r => rfl) hupd

/-- Witness for `update_single_field_frame`: the primary identifier is
untouched by an update of `name`. -/
theorem update_single_field_frame_witness :
    ("id" : String) ≠ "name" ∧
    (List.Forall₂ (fun r r2 => r2.attr "id" = r.attr "id") [exRowLive]
       (SQLRepository.update [exRowLive] (Val.int 1) [("name", Val.str "x")]).1 ∧
     (∀ db2 ret, SQLAsyncRepository.update [exRowLive] (Val.int 1)
         [("name", Val.str "x")] = Except.ok (db2, ret) →
       List.Forall₂ (fun r r2 => r2.attr "id" = r.attr "id") [exRowLive] db2)) :=
  ⟨by decide,
    update_single_field_frame [exRowLive] (Val.int 1) "name" (Val.str "x") "id"
      (by decide)⟩

/-- C7 (counterexample): a backend exception during `get` is wrapped into
the uniform database error but the handler performs no rollback, in either
variant — contradicting "the in-flight transaction is rolled back" for
every operation. -/
theorem get_rollback_cex :
    (SQLRepository.getOp true [] (Val.int 1)).result =
      Except.error PyExc.databaseError ∧
    (SQLRepository.getOp true [] (Val.int 1)).rolledBack = false ∧
    (SQLAsyncRepository.getOp true [] (Val.int 1)).result =
      Except.error PyExc.databaseError ∧
    (SQLAsyncRepository.getOp true [] (Val.int 1)).rolledBack = false :=
  ⟨rfl, rfl, rfl, rfl⟩

/-- C7 (amended): every backend exception is caught at the repository
boundary and surfaced as the single uniform database error; `create`,
`update` and `delete` roll the transaction back first, but both `get`
variants re-raise without rollback. -/
theorem db_error_uniform_amended (db : List Row) (objId : Val)
    (data : List (String × Val)) :
    (SQLRepository.getOp true db objId).result =
      Except.error PyExc.databaseError ∧
    (SQLRepository.getOp true db objId).rolledBack = false ∧
    (SQLRepository.createOp true db data).result =
      Except.error PyExc.databaseError ∧
    (SQLRepository.createOp true db data).rolledBack = true ∧
    (SQLRepository.updateOp true db objId data).result =
      Except.error PyExc.databaseError ∧
    (SQLRepository.updateOp true db objId data).rolledBack = true ∧
    (SQLRepository.deleteOp true db objId).result =
      Except.error PyExc.databaseError ∧
    (SQLRepository.deleteOp true db objId).rolledBack = true ∧
    (SQLAsyncRepository.getOp true db objId).result =
      Except.error PyExc.databaseError ∧
    (SQLAsyncRepository.getOp true db objId).rolledBack = false ∧
    (SQLAsyncRepository.createOp true db data).result =
      Except.error PyExc.databaseError ∧
    (SQLAsyncRepository.createOp true db data).rolledBack = true ∧
    (SQLAsyncRepository.updateOp true db objId data).result =
      Except.error PyExc.databaseError ∧
    (SQLAsyncRepository.updateOp true db objId data).rolledBack = true ∧
    (SQLAsyncRepository.deleteOp true db objId).result =
      Except.error PyExc.databaseError ∧
    (SQLAsyncRepository.deleteOp true db objId).rolledBack = true :=
  ⟨rfl, rfl, rfl, rfl, rfl, rfl, rfl, rfl, rfl, rfl, rfl, rfl, rfl, rfl, rfl, rfl⟩

end FastapiBase
